import Mathlib

/-!
Shallow embedding of the certificate-award Celery tasks, the contentstore
course quality / validation REST views and the manual_verifications
management command of the edx-platform excerpt, with theorems checking the
spec's claims about them.

External collaborators (the ORM, the modulestore, the credentials HTTP API,
numpy/scipy, Celery) are represented by explicit environment data; the control
flow of the embedded functions follows the Python source line by line.
-/

namespace ProgramsTasks

/-- Maximum number of retries before giving up on awarding credentials
(`tasks.py`, `MAX_RETRIES = 11`). -/
def MAX_RETRIES : Nat := 11

/-- Outcome of one call to `award_program_certificate` (a POST to the
credentials service) for one program uuid: the POST can succeed, come back
as `HttpNotFoundError`, or fail with any other exception. -/
inductive AwardOutcome where
  | success
  | notFound
  | otherError
deriving DecidableEq, Repr

def AwardOutcome.isOtherError : AwardOutcome → Bool
  | .otherError => true
  | _ => false

/-- How one execution of a task ends: it either returns normally, or raises
`self.retry(countdown, max_retries)`. -/
inductive TaskOutcome where
  | completed
  | retryRequested (countdown : Nat) (maxRetries : Nat)
deriving DecidableEq, Repr

/-- The log lines the two tasks can emit, in order of appearance in the
source. -/
inductive LogEvent where
  | running
  | issuanceDisabled
  | invalidUsername
  | noCompletedPrograms
  | failedDetermine
  | failedClientSetup
  | awarded (uuid : Nat)
  | programNotConfigured (uuid : Nat)
  | failedAward (uuid : Nat)
  | retrying
  | notEligible
  | succeeded
  | certificateNotFound
  | noCourseOverview
  | notViewable
  | awardedCourse
deriving DecidableEq, Repr

/-- Environment of one execution of `award_program_certificates`: the answers
that the external services (credentials config, ORM user lookup, the
`ProgramProgressMeter` per site, `get_credentials`, the API client and the
credentials POST endpoint) would give.  `none` models an exception raised by
the corresponding call; program uuids are modelled as naturals. -/
structure ProgEnv where
  issuanceEnabled : Bool
  userExists : Bool
  completedProgramsPerSite : Option (List (List Nat))
  certifiedPrograms : Option (List Nat)
  clientOk : Bool
  awardOutcome : Nat → AwardOutcome

/-- Result of one execution of a task: its outcome, the program uuids for
which a certificate-award POST was issued, and the log it produced. -/
structure TaskRun where
  outcome : TaskOutcome
  posts : List Nat
  logs : List LogEvent
deriving DecidableEq, Repr

/-- The line `sorted(list(set(program_uuids) - set(existing_program_uuids)))`
of the task: the distinct completed-but-not-yet-certified program uuids in
ascending order. -/
def newProgramUuids (program_uuids existing_program_uuids : List Nat) : List Nat :=
  List.insertionSort (· ≤ ·)
    ((program_uuids.filter (fun u => !existing_program_uuids.contains u)).dedup)

/-- Embedding of `award_program_certificates(self, username)`
(`tasks.py` lines 113-214).  `retries` is `self.request.retries`. -/
def awardProgramCertificates (env : ProgEnv) (retries : Nat) : TaskRun :=
  let countdown := 2 ^ retries
  if !env.issuanceEnabled then
    ⟨.retryRequested countdown MAX_RETRIES, [], [.running, .issuanceDisabled]⟩
  else if !env.userExists then
    ⟨.completed, [], [.running, .invalidUsername]⟩
  else
    match env.completedProgramsPerSite with
    | none => ⟨.retryRequested countdown MAX_RETRIES, [], [.running, .failedDetermine]⟩
    | some sitePrograms =>
      let program_uuids := sitePrograms.flatten
      if program_uuids.isEmpty then
        ⟨.completed, [], [.running, .noCompletedPrograms]⟩
      else
        match env.certifiedPrograms with
        | none => ⟨.retryRequested countdown MAX_RETRIES, [], [.running, .failedDetermine]⟩
        | some existing_program_uuids =>
          let new_program_uuids := newProgramUuids program_uuids existing_program_uuids
          if new_program_uuids.isEmpty then
            ⟨.completed, [], [.running, .notEligible, .succeeded]⟩
          else if !env.clientOk then
            ⟨.retryRequested countdown MAX_RETRIES, [], [.running, .failedClientSetup]⟩
          else
            let awardLogs := new_program_uuids.map (fun u =>
              match env.awardOutcome u with
              | .success => LogEvent.awarded u
              | .notFound => LogEvent.programNotConfigured u
              | .otherError => LogEvent.failedAward u)
            if new_program_uuids.any (fun u => (env.awardOutcome u).isOtherError) then
              ⟨.retryRequested countdown MAX_RETRIES, new_program_uuids,
                [.running] ++ awardLogs ++ [.retrying]⟩
            else
              ⟨.completed, new_program_uuids, [.running] ++ awardLogs ++ [.succeeded]⟩

/-- The certificate the ORM returns for `award_course_certificates`:
whether its mode lies in `GeneratedCertificate.VERIFIED_CERTS_MODES`, and
whether `certificate.is_valid()` holds (selecting the POSTed status). -/
structure CourseCertificate where
  modeVerified : Bool
  isValid : Bool
deriving DecidableEq, Repr

/-- Environment of one execution of `award_course_certificates`. -/
structure CourseEnv where
  issuanceEnabled : Bool
  userExists : Bool
  certificate : Option CourseCertificate
  overviewExists : Bool
  certsViewable : Bool
  clientAndPostOk : Bool
deriving DecidableEq, Repr

/-- Result of one execution of `award_course_certificates`: its outcome, the
status field of the certificate POST if one was completed, and the log. -/
structure CourseTaskRun where
  outcome : TaskOutcome
  postedStatus : Option String
  logs : List LogEvent
deriving DecidableEq, Repr

/-- Embedding of `award_course_certificates(self, username, course_run_key)`
(`tasks.py` lines 232-291).  `retries` is `self.request.retries`. -/
def awardCourseCertificates (env : CourseEnv) (retries : Nat) : CourseTaskRun :=
  let countdown := 2 ^ retries
  if !env.issuanceEnabled then
    ⟨.retryRequested countdown MAX_RETRIES, none, [.running, .issuanceDisabled]⟩
  else if !env.userExists then
    ⟨.completed, none, [.running, .invalidUsername]⟩
  else
    match env.certificate with
    | none => ⟨.completed, none, [.running, .certificateNotFound]⟩
    | some certificate =>
      if certificate.modeVerified then
        if !env.overviewExists then
          ⟨.completed, none, [.running, .noCourseOverview]⟩
        else if env.certsViewable then
          if env.clientAndPostOk then
            ⟨.completed, some (if certificate.isValid then "awarded" else "revoked"),
              [.running, .awardedCourse]⟩
          else
            ⟨.retryRequested countdown MAX_RETRIES, none, [.running, .failedDetermine]⟩
        else
          ⟨.completed, none, [.running, .notViewable]⟩
      else
        ⟨.completed, none, [.running]⟩

/-- Modelled from the spec: the Celery task queue is external to this
repository; per the spec the task "may be retried up to a fixed bound with
exponentially increasing delay".  `requestsRetry r` says whether the
execution whose retry counter is `r` requests a retry; the queue performs
retry `r` exactly when every execution up to `r` requested one and
`r < maxRetries`.  The value is the number of retries performed. -/
def retriesPerformed (requestsRetry : Nat → Bool) (maxRetries : Nat) : Nat :=
  ((List.range maxRetries).takeWhile requestsRetry).length

/-- Total waiting time accumulated over all performed retries, where
`countdownAt r` is the delay requested by the execution with retry
counter `r`. -/
def totalRetryDelay (countdownAt : Nat → Nat) (requestsRetry : Nat → Bool)
    (maxRetries : Nat) : Nat :=
  (((List.range maxRetries).takeWhile requestsRetry).map countdownAt).sum

/-- Sample environment: credentials issuance disabled, everything else healthy. -/
def sampleProgEnvDisabled : ProgEnv :=
  { issuanceEnabled := false, userExists := true,
    completedProgramsPerSite := some [[1]], certifiedPrograms := some [],
    clientOk := true, awardOutcome := fun _ => .success }

/-- Sample environment: healthy run with completed programs 1,2,3 of which 3 is
already certified. -/
def sampleProgEnvOk : ProgEnv :=
  { issuanceEnabled := true, userExists := true,
    completedProgramsPerSite := some [[2, 1], [3]], certifiedPrograms := some [3],
    clientOk := true, awardOutcome := fun _ => .success }

/-- Sample course-task environment: issuance disabled. -/
def sampleCourseEnvDisabled : CourseEnv :=
  { issuanceEnabled := false, userExists := true, certificate := some ⟨true, true⟩,
    overviewExists := true, certsViewable := true, clientAndPostOk := true }

/-- Sample course-task environment: user exists but no course overview data. -/
def sampleCourseEnvNoOverview : CourseEnv :=
  { issuanceEnabled := true, userExists := true, certificate := some ⟨true, true⟩,
    overviewExists := false, certsViewable := true, clientAndPostOk := true }

/-- Sample environment: the username matches no User. -/
def sampleProgEnvNoUser : ProgEnv :=
  { issuanceEnabled := true, userExists := false,
    completedProgramsPerSite := some [[1]], certifiedPrograms := some [],
    clientOk := true, awardOutcome := fun _ => .success }

/-- Sample course-task environment: the username matches no User. -/
def sampleCourseEnvNoUser : CourseEnv :=
  { issuanceEnabled := true, userExists := false, certificate := some ⟨true, true⟩,
    overviewExists := true, certsViewable := true, clientAndPostOk := true }

/-- Sample environment: every completed program is already certified. -/
def sampleProgEnvAllCertified : ProgEnv :=
  { issuanceEnabled := true, userExists := true,
    completedProgramsPerSite := some [[5, 7], [5]], certifiedPrograms := some [7, 5],
    clientOk := true, awardOutcome := fun _ => .success }

/-- Sample environment: awarding program 1 hits HttpNotFoundError, program 2 a
generic exception, program 3 succeeds. -/
def sampleProgEnvMixed : ProgEnv :=
  { issuanceEnabled := true, userExists := true,
    completedProgramsPerSite := some [[1, 2, 3]], certifiedPrograms := some [],
    clientOk := true,
    awardOutcome := fun u => if u = 1 then .notFound else if u = 2 then .otherError
      else .success }

end ProgramsTasks

namespace CourseQualityApi

/-- Response dictionary of `CourseQualityView._stats_dict`; `none` is Python
`None`. -/
structure StatsDict where
  min : Option ℚ
  max : Option ℚ
  mean : Option ℚ
  median : Option ℚ
  mode : Option ℚ
deriving DecidableEq, Repr

/-- Python builtin `min` over a list (`None` only when the list is empty,
where Python would raise). -/
def pyMin (l : List ℚ) : Option ℚ := l.min?

/-- Python builtin `max` over a list. -/
def pyMax (l : List ℚ) : Option ℚ := l.max?

/-- numpy `mean`: the sum divided by the length. -/
def npMean (l : List ℚ) : ℚ := l.sum / l.length

/-- numpy `around` at the default zero decimals: round to the nearest
integer, rounding halves to the even neighbour. -/
def npAround (q : ℚ) : ℤ :=
  let f := ⌊q⌋
  if q - f < 1 / 2 then f
  else if 1 / 2 < q - f then f + 1
  else if f % 2 = 0 then f else f + 1

/-- numpy `median`: the middle entry of the sorted data for odd length, the
average of the two middle entries for even length. -/
def npMedian (l : List ℚ) : Option ℚ :=
  if l.length % 2 = 1 then (List.insertionSort (· ≤ ·) l)[l.length / 2]?
  else
    match (List.insertionSort (· ≤ ·) l)[l.length / 2 - 1]?,
        (List.insertionSort (· ≤ ·) l)[l.length / 2]? with
    | some a, some b => some ((a + b) / 2)
    | _, _ => none

/-- scipy `stats.mode`: a most frequent value of the data, the smallest one
in case of a tie. -/
def scipyMode (l : List ℚ) : Option ℚ :=
  match (((List.insertionSort (· ≤ ·) l).dedup).map (fun x => l.count x)).max? with
  | none => none
  | some m => ((List.insertionSort (· ≤ ·) l).dedup).find? (fun x => l.count x = m)

/-- Embedding of `CourseQualityView._stats_dict` (course_quality.py lines
224-240). -/
def statsDict (data : List ℚ) : StatsDict :=
  if data.isEmpty then
    { min := none, max := none, mean := none, median := none, mode := none }
  else
    { min := pyMin data
      max := pyMax data
      mean := some ((npAround (npMean data) : ℤ) : ℚ)
      median := (npMedian data).map (fun q => ((npAround q : ℤ) : ℚ))
      mode := scipyMode data }

/-- The median stated independently, following the spec sentence
"descriptive statistics (min/max/mean/median/mode)": with `s` the ascending
sort and `n` the length, the average of the entries at positions `(n-1)/2`
and `n/2` (both are the middle entry when `n` is odd). -/
def specMedian (l : List ℚ) : ℚ :=
  ((List.insertionSort (· ≤ ·) l).getD ((l.length - 1) / 2) 0 +
    (List.insertionSort (· ≤ ·) l).getD (l.length / 2) 0) / 2

/-- A video xblock of the course, as seen by `_videos_quality`:  whether its
`edx_video_id` attribute is truthy. -/
structure VideoBlock where
  hasEdxVideoId : Bool
deriving DecidableEq, Repr

/-- A unit, as resolved through the modulestore: its visibility flags and
the block types of the leaf blocks `_get_leaf_blocks` finds under it. -/
structure CUnit where
  visibleToStaffOnly : Bool
  hideFromToc : Bool
  leafBlocks : List String
deriving DecidableEq, Repr

/-- A subsection with its visibility flags and child units. -/
structure Subsec where
  visibleToStaffOnly : Bool
  hideFromToc : Bool
  units : List CUnit
deriving DecidableEq, Repr

/-- A section with its visibility flags, highlights attribute and child
subsections. -/
structure Sec where
  visibleToStaffOnly : Bool
  hideFromToc : Bool
  hasHighlights : Bool
  subsections : List Subsec
deriving DecidableEq, Repr

/-- The course content tree as the quality view resolves it from the
modulestore, plus the video data from the modulestore and the VAL. -/
structure QCourse where
  selfPaced : Bool
  highlightsEnabledForMessaging : Bool
  sections : List Sec
  videoBlocks : List VideoBlock
  valVideoDurations : List ℚ
deriving DecidableEq, Repr

/-- Visibility filter of `_get_all_children`: drop children that are staff
only or hidden from the table of contents. -/
def visibleSections (c : QCourse) : List Sec :=
  c.sections.filter (fun s => !s.visibleToStaffOnly && !s.hideFromToc)

def visibleSubsections (s : Sec) : List Subsec :=
  s.subsections.filter (fun x => !x.visibleToStaffOnly && !x.hideFromToc)

def visibleUnits (s : Subsec) : List CUnit :=
  s.units.filter (fun x => !x.visibleToStaffOnly && !x.hideFromToc)

/-- The per-unit entry of `_get_subsections_and_units`: `num_leaf_blocks`
and the set `leaf_block_types`. -/
structure UnitInfo where
  numLeafBlocks : Nat
  leafBlockTypes : List String
deriving DecidableEq, Repr

def unitInfo (u : CUnit) : UnitInfo :=
  { numLeafBlocks := u.leafBlocks.length, leafBlockTypes := u.leafBlocks.dedup }

/-- Embedding of `_get_subsections_and_units`: for every visible subsection
of every visible section, the infos of its visible units. -/
def subsectionsAndUnits (c : QCourse) : List (List UnitInfo) :=
  ((visibleSections c).map (fun s =>
    (visibleSubsections s).map (fun ss => (visibleUnits ss).map unitInfo))).flatten

/-- Response dictionary of `_sections_quality`. -/
structure SectionsQuality where
  total_number : Nat
  total_visible : Nat
  number_with_highlights : Nat
  highlights_enabled : Bool
deriving DecidableEq, Repr

def sectionsQuality (c : QCourse) : SectionsQuality :=
  { total_number := c.sections.length
    total_visible := (visibleSections c).length
    number_with_highlights := ((visibleSections c).filter (fun s => s.hasHighlights)).length
    highlights_enabled := c.highlightsEnabledForMessaging }

/-- Per subsection, `len(set().union(*all_block_types))` where only units
with more than one leaf block contribute their block types. -/
def numBlockTypesOfSubsection (units : List UnitInfo) : Nat :=
  ((((units.filter (fun u => 1 < u.numLeafBlocks)).map
      (fun u => u.leafBlockTypes)).flatten).dedup).length

/-- Response dictionary of `_subsections_quality`. -/
structure SubsectionsQuality where
  total_number : Nat
  num_with_one_block_type : Nat
  num_block_types : StatsDict
deriving DecidableEq, Repr

def subsectionsQuality (c : QCourse) : SubsectionsQuality :=
  let counts := (subsectionsAndUnits c).map numBlockTypesOfSubsection
  { total_number := counts.length
    num_with_one_block_type := (counts.filter (fun n => n = 1)).length
    num_block_types := statsDict (counts.map (fun n => (n : ℚ))) }

/-- Response dictionary of `_units_quality`. -/
structure UnitsQuality where
  total_number : Nat
  num_blocks : StatsDict
deriving DecidableEq, Repr

def unitsQuality (c : QCourse) : UnitsQuality :=
  let numLeafBlocksList :=
    ((subsectionsAndUnits c).map (fun units => units.map (fun u => u.numLeafBlocks))).flatten
  { total_number := numLeafBlocksList.length
    num_blocks := statsDict (numLeafBlocksList.map (fun n => (n : ℚ))) }

/-- Response dictionary of `_videos_quality`. -/
structure VideosQuality where
  total_number : Nat
  num_mobile_encoded : Nat
  num_with_val_id : Nat
  durations : StatsDict
deriving DecidableEq, Repr

def videosQuality (c : QCourse) : VideosQuality :=
  { total_number := c.videoBlocks.length
    num_mobile_encoded := c.valVideoDurations.length
    num_with_val_id := (c.videoBlocks.filter (fun v => v.hasEdxVideoId)).length
    durations := statsDict c.valVideoDurations }

/-- Query parameters of a quality GET request: `none` models an absent
parameter, `some b` a present one whose string value has truthiness `b`. -/
structure QualityParams where
  all : Option Bool
  sections : Option Bool
  subsections : Option Bool
  units : Option Bool
  videos : Option Bool
deriving DecidableEq, Repr

/-- A DRF response: either 200 with a body, or an error response built by
`DeveloperErrorViewMixin.make_error_response`. -/
inductive ApiResponse (β : Type) where
  | ok (body : β)
  | error (statusCode : Nat) (developer_message : String) (error_code : String)
deriving DecidableEq

/-- The 200 body of the quality view; absent keys are `none`. -/
structure QualityBody where
  is_self_paced : Bool
  sections : Option SectionsQuality
  subsections : Option SubsectionsQuality
  units : Option UnitsQuality
  videos : Option VideosQuality
deriving DecidableEq, Repr

/-- Embedding of `CourseQualityView.get` (course_quality.py lines 73-110).
`user` stands for `request.user`, `hasCourseAuthorAccess` for the external
`has_course_author_access(request.user, course_key)` check; the Bool in the
result records whether the modulestore was consulted to aggregate content. -/
def courseQualityGet (user : Nat) (hasCourseAuthorAccess : Nat → Bool)
    (p : QualityParams) (course : QCourse) : ApiResponse QualityBody × Bool :=
  let default_request_value := p.all.getD false
  if !hasCourseAuthorAccess user then
    (.error 403 "The user requested does not have the required permissions." "user_mismatch",
      false)
  else
    (.ok
      { is_self_paced := course.selfPaced
        sections :=
          if p.sections.getD default_request_value then some (sectionsQuality course) else none
        subsections :=
          if p.subsections.getD default_request_value then some (subsectionsQuality course) else none
        units :=
          if p.units.getD default_request_value then some (unitsQuality course) else none
        videos :=
          if p.videos.getD default_request_value then some (videosQuality course) else none },
      true)

/-- A course with no content at all. -/
def emptyQCourse : QCourse :=
  { selfPaced := false, highlightsEnabledForMessaging := false,
    sections := [], videoBlocks := [], valVideoDurations := [] }

end CourseQualityApi

namespace CourseValidationApi

/-- An assignment (subsection) as `_get_assignments` resolves it: its staff
visibility flag and due date (dates modelled as integers, `none` for unset). -/
structure Assignment where
  visibleToStaffOnly : Bool
  due : Option ℤ
deriving DecidableEq, Repr

/-- A section with its visibility flags and child assignments. -/
structure VSection where
  visibleToStaffOnly : Bool
  hideFromToc : Bool
  assignments : List Assignment
deriving DecidableEq, Repr

/-- The course as the validation view sees it through the modulestore,
`CertificateManager` and `get_course_updates`. -/
structure VCourse where
  selfPaced : Bool
  startDateIsStillDefault : Bool
  start : ℤ
  endDate : Option ℤ
  sections : List VSection
  sumOfWeights : ℚ
  certificatesActivated : Bool
  certificatesCount : Nat
  updatesCount : Nat
deriving DecidableEq, Repr

/-- Embedding of `_has_start_date`. -/
def hasStartDate (c : VCourse) : Bool := !c.startDateIsStillDefault

/-- Response dictionary of `_dates_validation`. -/
structure DatesValidation where
  has_start_date : Bool
  has_end_date : Bool
deriving DecidableEq, Repr

def datesValidation (c : VCourse) : DatesValidation :=
  { has_start_date := hasStartDate c, has_end_date := c.endDate.isSome }

/-- Embedding of `_get_assignments`: all assignments of all sections, and
the non-staff-only assignments of the visible sections. -/
def getAssignments (c : VCourse) : List Assignment × List Assignment :=
  let assignments := (c.sections.map (fun s => s.assignments)).flatten
  let visibleSections := c.sections.filter (fun s => !s.visibleToStaffOnly && !s.hideFromToc)
  let assignmentsInVisibleSections := (visibleSections.map (fun s => s.assignments)).flatten
  (assignments, assignmentsInVisibleSections.filter (fun a => !a.visibleToStaffOnly))

/-- Response dictionary of `_assignments_validation`. -/
structure AssignmentsValidation where
  total_number : Nat
  total_visible : Nat
  num_with_dates : Nat
  num_with_dates_after_start : Nat
  num_with_dates_before_end : Nat
deriving DecidableEq, Repr

def assignmentsValidation (c : VCourse) : AssignmentsValidation :=
  let (assignments, visibleAssignments) := getAssignments c
  let assignmentsWithDates := visibleAssignments.filter (fun a => a.due.isSome)
  { total_number := assignments.length
    total_visible := visibleAssignments.length
    num_with_dates := assignmentsWithDates.length
    num_with_dates_after_start :=
      if hasStartDate c then
        (assignmentsWithDates.filter
          (fun a => match a.due with | some d => c.start < d | none => false)).length
      else 0
    num_with_dates_before_end :=
      match c.endDate with
      | some e =>
        (assignmentsWithDates.filter
          (fun a => match a.due with | some d => d < e | none => false)).length
      | none => 0 }

/-- Response dictionary of `_grades_validation`. -/
structure GradesValidation where
  sum_of_weights : ℚ
deriving DecidableEq, Repr

def gradesValidation (c : VCourse) : GradesValidation :=
  { sum_of_weights := c.sumOfWeights }

/-- Response dictionary of `_certificates_validation`. -/
structure CertificatesValidation where
  is_activated : Bool
  has_certificate : Bool
deriving DecidableEq, Repr

def certificatesValidation (c : VCourse) : CertificatesValidation :=
  { is_activated := c.certificatesActivated
    has_certificate := 0 < c.certificatesCount }

/-- Response dictionary of `_updates_validation`. -/
structure UpdatesValidation where
  has_update : Bool
deriving DecidableEq, Repr

def updatesValidation (c : VCourse) : UpdatesValidation :=
  { has_update := 0 < c.updatesCount }

/-- Query parameters of a validation GET request. -/
structure ValidationParams where
  all : Option Bool
  dates : Option Bool
  assignments : Option Bool
  grades : Option Bool
  certificates : Option Bool
  updates : Option Bool
deriving DecidableEq, Repr

/-- The 200 body of the validation view; absent keys are `none`. -/
structure ValidationBody where
  is_self_paced : Bool
  dates : Option DatesValidation
  assignments : Option AssignmentsValidation
  grades : Option GradesValidation
  certificates : Option CertificatesValidation
  updates : Option UpdatesValidation
deriving DecidableEq, Repr

/-- Embedding of `CourseValidationView.get` (course_validation.py lines
59-101), with the same conventions as `courseQualityGet`. -/
def courseValidationGet (user : Nat) (hasCourseAuthorAccess : Nat → Bool)
    (p : ValidationParams) (course : VCourse) :
    CourseQualityApi.ApiResponse ValidationBody × Bool :=
  let default_request_value := p.all.getD false
  if !hasCourseAuthorAccess user then
    (.error 403 "The user requested does not have the required permissions." "user_mismatch",
      false)
  else
    (.ok
      { is_self_paced := course.selfPaced
        dates :=
          if p.dates.getD default_request_value then some (datesValidation course) else none
        assignments :=
          if p.assignments.getD default_request_value then some (assignmentsValidation course)
          else none
        grades :=
          if p.grades.getD default_request_value then some (gradesValidation course) else none
        certificates :=
          if p.certificates.getD default_request_value then some (certificatesValidation course)
          else none
        updates :=
          if p.updates.getD default_request_value then some (updatesValidation course) else none },
      true)

end CourseValidationApi

namespace ManualVerificationsCmd

/-- A user row, as far as the command touches it: primary key, email, and
`user.profile.name`. -/
structure MVUser where
  id : Nat
  email : String
  profileName : String
deriving DecidableEq, Repr

/-- A `ManualVerification` row; dates are modelled as integers. -/
structure ManualVerification where
  user : Nat
  status : String
  createdAt : Nat
  name : String
deriving DecidableEq, Repr

/-- Loop body of `Command.handle` (manual_verifications.py lines 36-52) for
one email: look the user up, query their approved verifications created at
or after `earliestAllowed`, and create a new approved one when none exists.
`none` models the `User.DoesNotExist` exception propagating out of
`User.objects.get`; `now` is the auto-set `created_at` of a new row. -/
def processEmail (users : List MVUser) (earliestAllowed now : Nat)
    (st : List ManualVerification) (email : String) : Option (List ManualVerification) :=
  match users.find? (fun u => u.email == email) with
  | none => none
  | some user =>
    let verifications := st.filter
      (fun v => v.user == user.id && v.status == "approved" && earliestAllowed ≤ v.createdAt)
    if verifications.isEmpty then
      some (st ++
        [{ user := user.id, status := "approved", createdAt := now, name := user.profileName }])
    else
      some st

/-- Embedding of `Command.handle` over the whole `--email-id` list. -/
def handleCommand (users : List MVUser) (earliestAllowed now : Nat)
    (emails : List String) (st : List ManualVerification) :
    Option (List ManualVerification) :=
  emails.foldlM (fun s e => processEmail users earliestAllowed now s e) st

end ManualVerificationsCmd


/-!
Helper lemmas shared by the claim theorems.
-/

namespace ProgramsTasks

/-- Every retry request of `award_program_certificates` carries the countdown
`2 ^ retries` and the bound `MAX_RETRIES`. -/
theorem awardProgram_retry_countdown (env : ProgEnv) (r c m : Nat)
    (h : (awardProgramCertificates env r).outcome = TaskOutcome.retryRequested c m) :
    c = 2 ^ r ∧ m = MAX_RETRIES := by
  unfold awardProgramCertificates at h
  repeat' ((try dsimp only at h); split at h)
  all_goals first
    | (injection h with h1 h2; exact ⟨h1.symm, h2.symm⟩)
    | (injection h)

/-- Every retry request of `award_course_certificates` carries the countdown
`2 ^ retries` and the bound `MAX_RETRIES`. -/
theorem awardCourse_retry_countdown (env : CourseEnv) (r c m : Nat)
    (h : (awardCourseCertificates env r).outcome = TaskOutcome.retryRequested c m) :
    c = 2 ^ r ∧ m = MAX_RETRIES := by
  unfold awardCourseCertificates at h
  repeat' split at h
  all_goals first
    | (injection h with h1 h2; exact ⟨h1.symm, h2.symm⟩)
    | (injection h)

/-- A predicate holding on the whole list makes `takeWhile` keep it all. -/
theorem takeWhile_of_all {α : Type} (p : α → Bool) :
    ∀ l : List α, (∀ x ∈ l, p x = true) → l.takeWhile p = l
  | [], _ => rfl
  | x :: xs, h => by
    have hx := h x (List.mem_cons_self x xs)
    have ih := takeWhile_of_all p xs (fun y hy => h y (List.mem_cons_of_mem _ hy))
    simp [List.takeWhile_cons, hx, ih]

end ProgramsTasks

/-- C1: for every execution of award_program_certificates and
award_course_certificates, a recoverable failure makes the task request a retry
with delay 2 ^ r seconds, r being the number of retries already performed, and
with the fixed bound MAX_RETRIES = 11, so the queue never performs more than 11
retries. -/
theorem certificate_tasks_retry_backoff_bounded :
    (∀ env r c m, (ProgramsTasks.awardProgramCertificates env r).outcome =
        ProgramsTasks.TaskOutcome.retryRequested c m →
        c = 2 ^ r ∧ m = ProgramsTasks.MAX_RETRIES)
    ∧ (∀ env r c m, (ProgramsTasks.awardCourseCertificates env r).outcome =
        ProgramsTasks.TaskOutcome.retryRequested c m →
        c = 2 ^ r ∧ m = ProgramsTasks.MAX_RETRIES)
    ∧ ∀ req, ProgramsTasks.retriesPerformed req ProgramsTasks.MAX_RETRIES ≤ 11 := by
  refine ⟨ProgramsTasks.awardProgram_retry_countdown,
    ProgramsTasks.awardCourse_retry_countdown, ?_⟩
  intro req
  have h := (List.takeWhile_sublist req (l := List.range ProgramsTasks.MAX_RETRIES)).length_le
  simpa [ProgramsTasks.retriesPerformed, ProgramsTasks.MAX_RETRIES] using h

/-- Witness for C1 at retry counters 3 and 2 with concrete environments. -/
theorem certificate_tasks_retry_backoff_bounded_witness :
    ((8 : Nat) = 2 ^ 3 ∧ ProgramsTasks.MAX_RETRIES = ProgramsTasks.MAX_RETRIES)
    ∧ ((4 : Nat) = 2 ^ 2 ∧ ProgramsTasks.MAX_RETRIES = ProgramsTasks.MAX_RETRIES)
    ∧ ProgramsTasks.retriesPerformed (fun _ => true) ProgramsTasks.MAX_RETRIES ≤ 11 :=
  ⟨certificate_tasks_retry_backoff_bounded.1 ProgramsTasks.sampleProgEnvDisabled 3 8
      ProgramsTasks.MAX_RETRIES (by decide),
   certificate_tasks_retry_backoff_bounded.2.1 ProgramsTasks.sampleCourseEnvDisabled 2 4
      ProgramsTasks.MAX_RETRIES (by decide),
   certificate_tasks_retry_backoff_bounded.2.2 (fun _ => true)⟩

/-- C9: the retry delay requested before the next execution is exactly 2 ^ r
seconds, r being the current retry counter, and a task that requests a retry at
every execution performs all MAX_RETRIES = 11 retries, accumulating a total
waiting time of 2^0 + 2^1 + ... + 2^10 = 2047 seconds. -/
theorem certificate_tasks_total_backoff_delay :
    (∀ env r c m, (ProgramsTasks.awardProgramCertificates env r).outcome =
        ProgramsTasks.TaskOutcome.retryRequested c m → c = 2 ^ r)
    ∧ (∀ env r c m, (ProgramsTasks.awardCourseCertificates env r).outcome =
        ProgramsTasks.TaskOutcome.retryRequested c m → c = 2 ^ r)
    ∧ ∀ req : Nat → Bool, (∀ r, req r = true) →
        ProgramsTasks.retriesPerformed req ProgramsTasks.MAX_RETRIES = 11
        ∧ ProgramsTasks.totalRetryDelay (fun r => 2 ^ r) req
            ProgramsTasks.MAX_RETRIES = 2047 := by
  refine ⟨fun env r c m h => (ProgramsTasks.awardProgram_retry_countdown env r c m h).1,
    fun env r c m h => (ProgramsTasks.awardCourse_retry_countdown env r c m h).1, ?_⟩
  intro req hreq
  have ht : (List.range ProgramsTasks.MAX_RETRIES).takeWhile req =
      List.range ProgramsTasks.MAX_RETRIES :=
    ProgramsTasks.takeWhile_of_all req _ (fun x _ => hreq x)
  constructor
  · unfold ProgramsTasks.retriesPerformed
    rw [ht]
    rfl
  · unfold ProgramsTasks.totalRetryDelay
    rw [ht]
    rfl

/-- Witness for C9 at retry counter 10 and the always-retry execution trace. -/
theorem certificate_tasks_total_backoff_delay_witness :
    (1024 : Nat) = 2 ^ 10
    ∧ (1 : Nat) = 2 ^ 0
    ∧ (ProgramsTasks.retriesPerformed (fun _ => true) ProgramsTasks.MAX_RETRIES = 11
        ∧ ProgramsTasks.totalRetryDelay (fun r => 2 ^ r) (fun _ => true)
            ProgramsTasks.MAX_RETRIES = 2047) :=
  ⟨certificate_tasks_total_backoff_delay.1 ProgramsTasks.sampleProgEnvDisabled 10 1024
      ProgramsTasks.MAX_RETRIES (by decide),
   certificate_tasks_total_backoff_delay.2.1 ProgramsTasks.sampleCourseEnvDisabled 0 1
      ProgramsTasks.MAX_RETRIES (by decide),
   certificate_tasks_total_backoff_delay.2.2 (fun _ => true) (fun _ => rfl)⟩


namespace ProgramsTasks

/-- Membership in `sorted(list(set(program_uuids) - set(existing)))`. -/
theorem mem_newProgramUuids (pu ex : List Nat) (u : Nat) :
    u ∈ newProgramUuids pu ex ↔ u ∈ pu ∧ u ∉ ex := by
  unfold newProgramUuids
  rw [List.mem_insertionSort, List.mem_dedup, List.mem_filter]
  simp

/-- The sorted difference is empty exactly when every completed program is
already certified. -/
theorem newProgramUuids_nil_iff (pu ex : List Nat) :
    newProgramUuids pu ex = [] ↔ ∀ u ∈ pu, u ∈ ex := by
  constructor
  · intro h u hu
    by_contra hne
    have hmem := (mem_newProgramUuids pu ex u).mpr ⟨hu, hne⟩
    rw [h] at hmem
    exact absurd hmem (List.not_mem_nil u)
  · intro h
    rw [List.eq_nil_iff_forall_not_mem]
    intro u hu
    have hm := (mem_newProgramUuids pu ex u).mp hu
    exact hm.2 (h u hm.1)

/-- The sorted difference is sorted. -/
theorem newProgramUuids_sorted (pu ex : List Nat) :
    List.Sorted (· ≤ ·) (newProgramUuids pu ex) :=
  List.sorted_insertionSort (· ≤ ·) _

/-- The sorted difference has no duplicates. -/
theorem newProgramUuids_nodup (pu ex : List Nat) : (newProgramUuids pu ex).Nodup :=
  (List.perm_insertionSort (· ≤ ·) _).nodup_iff.mpr (List.nodup_dedup _)

/-- Under a healthy environment the POSTs issued by the task are exactly the
sorted difference of completed minus certified programs. -/
theorem awardProgram_posts_eq (env : ProgEnv) (r : Nat) (sp : List (List Nat))
    (ex : List Nat) (h1 : env.issuanceEnabled = true) (h2 : env.userExists = true)
    (h3 : env.completedProgramsPerSite = some sp) (h4 : env.certifiedPrograms = some ex)
    (h5 : env.clientOk = true) :
    (awardProgramCertificates env r).posts = newProgramUuids sp.flatten ex := by
  simp only [awardProgramCertificates, h1, h2, h3, h4, h5, Bool.not_true, Bool.false_eq_true, if_false]
  by_cases hemp : sp.flatten.isEmpty = true
  · rw [if_pos hemp]
    rw [List.isEmpty_iff.mp hemp]
    rfl
  · rw [if_neg hemp]
    by_cases hnew : (newProgramUuids sp.flatten ex).isEmpty = true
    · rw [if_pos hnew]
      exact (List.isEmpty_iff.mp hnew).symm
    · rw [if_neg hnew]
      by_cases hany : ((newProgramUuids sp.flatten ex).any
          (fun u => (env.awardOutcome u).isOtherError)) = true
      · rw [if_pos hany]
      · rw [if_neg hany]

/-- Under a healthy environment the outcome is a retry exactly when some POST
in the award loop failed with a generic exception. -/
theorem awardProgram_outcome_eq (env : ProgEnv) (r : Nat) (sp : List (List Nat))
    (ex : List Nat) (h1 : env.issuanceEnabled = true) (h2 : env.userExists = true)
    (h3 : env.completedProgramsPerSite = some sp) (h4 : env.certifiedPrograms = some ex)
    (h5 : env.clientOk = true) :
    (awardProgramCertificates env r).outcome =
      (if (newProgramUuids sp.flatten ex).any (fun u => (env.awardOutcome u).isOtherError)
      then TaskOutcome.retryRequested (2 ^ r) MAX_RETRIES
      else TaskOutcome.completed) := by
  simp only [awardProgramCertificates, h1, h2, h3, h4, h5, Bool.not_true, Bool.false_eq_true, if_false]
  by_cases hemp : sp.flatten.isEmpty = true
  · rw [if_pos hemp]
    have hnil : newProgramUuids sp.flatten ex = [] := by
      rw [List.isEmpty_iff.mp hemp]
      rfl
    rw [hnil]
    rfl
  · rw [if_neg hemp]
    by_cases hnew : (newProgramUuids sp.flatten ex).isEmpty = true
    · rw [if_pos hnew]
      rw [List.isEmpty_iff.mp hnew]
      rfl
    · rw [if_neg hnew]
      by_cases hany : ((newProgramUuids sp.flatten ex).any
          (fun u => (env.awardOutcome u).isOtherError)) = true
      · rw [if_pos hany, if_pos hany]
      · rw [if_neg hany, if_neg hany]

/-- A program whose POST came back as HttpNotFoundError is logged as not
configured. -/
theorem awardProgram_notFound_logged (env : ProgEnv) (r : Nat) (sp : List (List Nat))
    (ex : List Nat) (h1 : env.issuanceEnabled = true) (h2 : env.userExists = true)
    (h3 : env.completedProgramsPerSite = some sp) (h4 : env.certifiedPrograms = some ex)
    (h5 : env.clientOk = true) (u : Nat)
    (hu : u ∈ (awardProgramCertificates env r).posts)
    (hnf : env.awardOutcome u = AwardOutcome.notFound) :
    LogEvent.programNotConfigured u ∈ (awardProgramCertificates env r).logs := by
  have hum : u ∈ newProgramUuids sp.flatten ex := by
    rw [← awardProgram_posts_eq env r sp ex h1 h2 h3 h4 h5]
    exact hu
  have hemp : ¬ sp.flatten.isEmpty = true := by
    intro hx
    have : newProgramUuids sp.flatten ex = [] := by
      rw [List.isEmpty_iff.mp hx]
      rfl
    rw [this] at hum
    exact absurd hum (List.not_mem_nil u)
  have hnew : ¬ (newProgramUuids sp.flatten ex).isEmpty = true := by
    intro hx
    rw [List.isEmpty_iff.mp hx] at hum
    exact absurd hum (List.not_mem_nil u)
  have hlog : LogEvent.programNotConfigured u ∈ (newProgramUuids sp.flatten ex).map
      (fun v => match env.awardOutcome v with
        | .success => LogEvent.awarded v
        | .notFound => LogEvent.programNotConfigured v
        | .otherError => LogEvent.failedAward v) := by
    rw [List.mem_map]
    refine ⟨u, hum, ?_⟩
    rw [hnf]
  simp only [awardProgramCertificates, h1, h2, h3, h4, h5, Bool.not_true, Bool.false_eq_true, if_false]
  rw [if_neg hemp, if_neg hnew]
  by_cases hany : ((newProgramUuids sp.flatten ex).any
      (fun v => (env.awardOutcome v).isOtherError)) = true
  · rw [if_pos hany]
    exact List.mem_append.mpr (Or.inl (List.mem_append.mpr (Or.inr hlog)))
  · rw [if_neg hany]
    exact List.mem_append.mpr (Or.inl (List.mem_append.mpr (Or.inr hlog)))

end ProgramsTasks

/-- C3: with issuance enabled, award_program_certificates invoked with a username
matching no User, and award_course_certificates invoked with a username matching
no User or (when an eligible verified-mode certificate exists) with a course run
lacking course overview data, log the event and return normally without
requesting a retry. -/
theorem certificate_tasks_unrecoverable_no_retry
    (penv : ProgramsTasks.ProgEnv) (cenv cenv2 : ProgramsTasks.CourseEnv)
    (cert : ProgramsTasks.CourseCertificate) (r : Nat)
    (hp1 : penv.issuanceEnabled = true) (hp2 : penv.userExists = false)
    (hc1 : cenv.issuanceEnabled = true) (hc2 : cenv.userExists = false)
    (hd1 : cenv2.issuanceEnabled = true) (hd2 : cenv2.userExists = true)
    (hd3 : cenv2.certificate = some cert) (hd4 : cert.modeVerified = true)
    (hd5 : cenv2.overviewExists = false) :
    ProgramsTasks.awardProgramCertificates penv r =
      ⟨.completed, [], [.running, .invalidUsername]⟩
    ∧ ProgramsTasks.awardCourseCertificates cenv r =
      ⟨.completed, none, [.running, .invalidUsername]⟩
    ∧ ProgramsTasks.awardCourseCertificates cenv2 r =
      ⟨.completed, none, [.running, .noCourseOverview]⟩ := by
  refine ⟨?_, ?_, ?_⟩
  · simp [ProgramsTasks.awardProgramCertificates, hp1, hp2]
  · simp [ProgramsTasks.awardCourseCertificates, hc1, hc2]
  · simp [ProgramsTasks.awardCourseCertificates, hd1, hd2, hd3, hd4, hd5]

/-- Witness for C3 at concrete environments. -/
theorem certificate_tasks_unrecoverable_no_retry_witness :
    ProgramsTasks.awardProgramCertificates ProgramsTasks.sampleProgEnvNoUser 4 =
      ⟨.completed, [], [.running, .invalidUsername]⟩
    ∧ ProgramsTasks.awardCourseCertificates ProgramsTasks.sampleCourseEnvNoUser 4 =
      ⟨.completed, none, [.running, .invalidUsername]⟩
    ∧ ProgramsTasks.awardCourseCertificates ProgramsTasks.sampleCourseEnvNoOverview 4 =
      ⟨.completed, none, [.running, .noCourseOverview]⟩ :=
  certificate_tasks_unrecoverable_no_retry ProgramsTasks.sampleProgEnvNoUser
    ProgramsTasks.sampleCourseEnvNoUser ProgramsTasks.sampleCourseEnvNoOverview
    ⟨true, true⟩ 4 rfl rfl rfl rfl rfl rfl rfl rfl rfl

/-- C4: in a successful run of award_program_certificates, a certificate-award
POST is issued exactly for the program uuids completed over all sites but not yet
credentialed, processed in ascending order without duplicates, and none is issued
when that difference is empty. -/
theorem award_program_certificates_posts_exactly_new
    (env : ProgramsTasks.ProgEnv) (r : Nat) (sp : List (List Nat)) (ex : List Nat)
    (h1 : env.issuanceEnabled = true) (h2 : env.userExists = true)
    (h3 : env.completedProgramsPerSite = some sp)
    (h4 : env.certifiedPrograms = some ex)
    (h5 : env.clientOk = true)
    (h6 : ∀ u, u ∈ sp.flatten → u ∉ ex →
      env.awardOutcome u = ProgramsTasks.AwardOutcome.success) :
    (ProgramsTasks.awardProgramCertificates env r).outcome =
      ProgramsTasks.TaskOutcome.completed
    ∧ (∀ u, u ∈ (ProgramsTasks.awardProgramCertificates env r).posts ↔
        u ∈ sp.flatten ∧ u ∉ ex)
    ∧ List.Sorted (· ≤ ·) (ProgramsTasks.awardProgramCertificates env r).posts
    ∧ (ProgramsTasks.awardProgramCertificates env r).posts.Nodup
    ∧ ((∀ u ∈ sp.flatten, u ∈ ex) →
        (ProgramsTasks.awardProgramCertificates env r).posts = []) := by
  have hposts := ProgramsTasks.awardProgram_posts_eq env r sp ex h1 h2 h3 h4 h5
  have houtcome := ProgramsTasks.awardProgram_outcome_eq env r sp ex h1 h2 h3 h4 h5
  have hnoerr : ((ProgramsTasks.newProgramUuids sp.flatten ex).any
      (fun u => (env.awardOutcome u).isOtherError)) = false := by
    rw [List.any_eq_false]
    intro u hu
    have hm := (ProgramsTasks.mem_newProgramUuids sp.flatten ex u).mp hu
    rw [h6 u hm.1 hm.2]
    simp [ProgramsTasks.AwardOutcome.isOtherError]
  refine ⟨?_, ?_, ?_, ?_, ?_⟩
  · rw [houtcome, hnoerr]
    rfl
  · intro u
    rw [hposts]
    exact ProgramsTasks.mem_newProgramUuids sp.flatten ex u
  · rw [hposts]
    exact ProgramsTasks.newProgramUuids_sorted sp.flatten ex
  · rw [hposts]
    exact ProgramsTasks.newProgramUuids_nodup sp.flatten ex
  · intro hall
    rw [hposts]
    exact (ProgramsTasks.newProgramUuids_nil_iff sp.flatten ex).mpr hall

/-- Witness for C4: completed programs 1,2,3 with 3 already certified yield POSTs
for exactly 1 and 2, in order. -/
theorem award_program_certificates_posts_exactly_new_witness :
    (ProgramsTasks.awardProgramCertificates ProgramsTasks.sampleProgEnvOk 0).outcome =
      ProgramsTasks.TaskOutcome.completed
    ∧ (1 ∈ (ProgramsTasks.awardProgramCertificates ProgramsTasks.sampleProgEnvOk 0).posts ↔
        1 ∈ ([[2, 1], [3]] : List (List Nat)).flatten ∧ 1 ∉ ([3] : List Nat))
    ∧ (3 ∈ (ProgramsTasks.awardProgramCertificates ProgramsTasks.sampleProgEnvOk 0).posts ↔
        3 ∈ ([[2, 1], [3]] : List (List Nat)).flatten ∧ 3 ∉ ([3] : List Nat)) := by
  have h := award_program_certificates_posts_exactly_new ProgramsTasks.sampleProgEnvOk 0
    [[2, 1], [3]] [3] rfl rfl rfl rfl rfl (fun _ _ _ => rfl)
  exact ⟨h.1, h.2.1 1, h.2.1 3⟩

/-- C5: when every completed program is already certified, a re-execution of
award_program_certificates issues no POST and completes normally, so the task is
idempotent once all awards are recorded. -/
theorem award_program_certificates_idempotent
    (env : ProgramsTasks.ProgEnv) (r : Nat) (sp : List (List Nat)) (ex : List Nat)
    (h1 : env.issuanceEnabled = true) (h2 : env.userExists = true)
    (h3 : env.completedProgramsPerSite = some sp)
    (h4 : env.certifiedPrograms = some ex)
    (h5 : env.clientOk = true)
    (hall : ∀ u ∈ sp.flatten, u ∈ ex) :
    (ProgramsTasks.awardProgramCertificates env r).outcome =
      ProgramsTasks.TaskOutcome.completed
    ∧ (ProgramsTasks.awardProgramCertificates env r).posts = [] := by
  have hnil := (ProgramsTasks.newProgramUuids_nil_iff sp.flatten ex).mpr hall
  have hposts := ProgramsTasks.awardProgram_posts_eq env r sp ex h1 h2 h3 h4 h5
  have houtcome := ProgramsTasks.awardProgram_outcome_eq env r sp ex h1 h2 h3 h4 h5
  constructor
  · rw [houtcome, hnil]
    rfl
  · rw [hposts, hnil]

/-- Witness for C5: completed programs 5,7 both already certified. -/
theorem award_program_certificates_idempotent_witness :
    (ProgramsTasks.awardProgramCertificates ProgramsTasks.sampleProgEnvAllCertified 1).outcome =
      ProgramsTasks.TaskOutcome.completed
    ∧ (ProgramsTasks.awardProgramCertificates
        ProgramsTasks.sampleProgEnvAllCertified 1).posts = [] :=
  award_program_certificates_idempotent ProgramsTasks.sampleProgEnvAllCertified 1
    [[5, 7], [5]] [7, 5] rfl rfl rfl rfl rfl (by decide)

/-- C8: in the award loop, every program of the sorted difference is attempted
regardless of earlier failures; a POST answered with HttpNotFoundError is logged
as not configured and does not by itself cause a retry, while any other
exception makes the whole task request a retry after the loop. -/
theorem award_program_certificates_loop_error_handling
    (env : ProgramsTasks.ProgEnv) (r : Nat) (sp : List (List Nat)) (ex : List Nat)
    (h1 : env.issuanceEnabled = true) (h2 : env.userExists = true)
    (h3 : env.completedProgramsPerSite = some sp)
    (h4 : env.certifiedPrograms = some ex)
    (h5 : env.clientOk = true) :
    (∀ u, u ∈ (ProgramsTasks.awardProgramCertificates env r).posts ↔
        u ∈ sp.flatten ∧ u ∉ ex)
    ∧ (∀ u, u ∈ (ProgramsTasks.awardProgramCertificates env r).posts →
        env.awardOutcome u = ProgramsTasks.AwardOutcome.notFound →
        ProgramsTasks.LogEvent.programNotConfigured u ∈
          (ProgramsTasks.awardProgramCertificates env r).logs)
    ∧ ((∀ u, u ∈ sp.flatten → u ∉ ex →
          env.awardOutcome u ≠ ProgramsTasks.AwardOutcome.otherError) →
        (ProgramsTasks.awardProgramCertificates env r).outcome =
          ProgramsTasks.TaskOutcome.completed)
    ∧ ((∃ u, (u ∈ sp.flatten ∧ u ∉ ex) ∧
          env.awardOutcome u = ProgramsTasks.AwardOutcome.otherError) →
        (ProgramsTasks.awardProgramCertificates env r).outcome =
          ProgramsTasks.TaskOutcome.retryRequested (2 ^ r) ProgramsTasks.MAX_RETRIES) := by
  have hposts := ProgramsTasks.awardProgram_posts_eq env r sp ex h1 h2 h3 h4 h5
  have houtcome := ProgramsTasks.awardProgram_outcome_eq env r sp ex h1 h2 h3 h4 h5
  refine ⟨?_, ?_, ?_, ?_⟩
  · intro u
    rw [hposts]
    exact ProgramsTasks.mem_newProgramUuids sp.flatten ex u
  · intro u hu hnf
    exact ProgramsTasks.awardProgram_notFound_logged env r sp ex h1 h2 h3 h4 h5 u hu hnf
  · intro hnone
    have hnoerr : ((ProgramsTasks.newProgramUuids sp.flatten ex).any
        (fun u => (env.awardOutcome u).isOtherError)) = false := by
      rw [List.any_eq_false]
      intro u hu
      have hm := (ProgramsTasks.mem_newProgramUuids sp.flatten ex u).mp hu
      intro hcon
      cases henv : env.awardOutcome u with
      | otherError => exact hnone u hm.1 hm.2 henv
      | success => rw [henv] at hcon; exact absurd hcon (by simp [ProgramsTasks.AwardOutcome.isOtherError])
      | notFound => rw [henv] at hcon; exact absurd hcon (by simp [ProgramsTasks.AwardOutcome.isOtherError])
    rw [houtcome, hnoerr]
    rfl
  · rintro ⟨u, hm, herr⟩
    have hsome : ((ProgramsTasks.newProgramUuids sp.flatten ex).any
        (fun u => (env.awardOutcome u).isOtherError)) = true := by
      rw [List.any_eq_true]
      refine ⟨u, (ProgramsTasks.mem_newProgramUuids sp.flatten ex u).mpr hm, ?_⟩
      rw [herr]
      rfl
    rw [houtcome, hsome]
    rfl

/-- Witness for C8 with programs 1 (HttpNotFoundError), 2 (generic error) and 3
(success) in the loop. -/
theorem award_program_certificates_loop_error_handling_witness :
    (2 ∈ (ProgramsTasks.awardProgramCertificates ProgramsTasks.sampleProgEnvMixed 0).posts ↔
      2 ∈ ([[1, 2, 3]] : List (List Nat)).flatten ∧ 2 ∉ ([] : List Nat))
    ∧ ProgramsTasks.LogEvent.programNotConfigured 1 ∈
        (ProgramsTasks.awardProgramCertificates ProgramsTasks.sampleProgEnvMixed 0).logs
    ∧ (ProgramsTasks.awardProgramCertificates ProgramsTasks.sampleProgEnvMixed 0).outcome =
        ProgramsTasks.TaskOutcome.retryRequested (2 ^ 0) ProgramsTasks.MAX_RETRIES := by
  have h := award_program_certificates_loop_error_handling ProgramsTasks.sampleProgEnvMixed 0
    [[1, 2, 3]] [] rfl rfl rfl rfl rfl
  refine ⟨h.1 2, ?_, ?_⟩
  · exact h.2.1 1 (by decide) rfl
  · exact h.2.2.2 ⟨2, ⟨by decide, by decide⟩, rfl⟩

/-- C2: a GET to the course quality or course validation endpoint by a user
without course-author access returns HTTP 403 with the structured fields
developer_message and error_code 'user_mismatch', and performs no content
aggregation (the modulestore-consulted flag stays false). -/
theorem course_endpoints_forbidden_without_author_access
    (user : Nat) (acc : Nat → Bool)
    (p : CourseQualityApi.QualityParams) (c : CourseQualityApi.QCourse)
    (vp : CourseValidationApi.ValidationParams) (vc : CourseValidationApi.VCourse)
    (h : acc user = false) :
    CourseQualityApi.courseQualityGet user acc p c =
      (CourseQualityApi.ApiResponse.error 403
        "The user requested does not have the required permissions." "user_mismatch", false)
    ∧ CourseValidationApi.courseValidationGet user acc vp vc =
      (CourseQualityApi.ApiResponse.error 403
        "The user requested does not have the required permissions." "user_mismatch", false) := by
  constructor
  · simp [CourseQualityApi.courseQualityGet, h]
  · simp [CourseValidationApi.courseValidationGet, h]

/-- Witness for C2: a user the access check rejects, with every parameter
requested. -/
theorem course_endpoints_forbidden_without_author_access_witness :
    CourseQualityApi.courseQualityGet 3 (fun _ => false)
      ⟨some true, none, none, none, none⟩ CourseQualityApi.emptyQCourse =
      (CourseQualityApi.ApiResponse.error 403
        "The user requested does not have the required permissions." "user_mismatch", false)
    ∧ CourseValidationApi.courseValidationGet 3 (fun _ => false)
      ⟨some true, none, none, none, none, none⟩
      ⟨false, true, 0, none, [], 1, false, 0, 0⟩ =
      (CourseQualityApi.ApiResponse.error 403
        "The user requested does not have the required permissions." "user_mismatch", false) :=
  course_endpoints_forbidden_without_author_access 3 (fun _ => false)
    ⟨some true, none, none, none, none⟩ CourseQualityApi.emptyQCourse
    ⟨some true, none, none, none, none, none⟩
    ⟨false, true, 0, none, [], 1, false, 0, 0⟩ rfl

/-- C6: for a user matched by email, the manual_verifications command creates a
new approved ManualVerification exactly when the user has no approved
verification created at or after the earliest allowed date; otherwise it leaves
the verification state unchanged. -/
theorem manual_verifications_create_iff
    (users : List ManualVerificationsCmd.MVUser) (earliest now : Nat)
    (st : List ManualVerificationsCmd.ManualVerification) (email : String)
    (u : ManualVerificationsCmd.MVUser)
    (hu : users.find? (fun x => x.email == email) = some u) :
    ((∀ v ∈ st, ¬(v.user = u.id ∧ v.status = "approved" ∧ earliest ≤ v.createdAt)) →
      ManualVerificationsCmd.processEmail users earliest now st email =
        some (st ++ [{ user := u.id, status := "approved", createdAt := now,
                       name := u.profileName }]))
    ∧ ((∃ v ∈ st, v.user = u.id ∧ v.status = "approved" ∧ earliest ≤ v.createdAt) →
      ManualVerificationsCmd.processEmail users earliest now st email = some st) := by
  unfold ManualVerificationsCmd.processEmail
  rw [hu]
  dsimp only
  constructor
  · intro hnone
    have hfil : (st.filter (fun v => v.user == u.id && v.status == "approved"
        && earliest ≤ v.createdAt)).isEmpty = true := by
      rw [List.isEmpty_iff, List.filter_eq_nil_iff]
      intro v hv
      simp only [Bool.and_eq_true, beq_iff_eq, decide_eq_true_eq]
      intro hc
      exact hnone v hv ⟨hc.1.1, hc.1.2, hc.2⟩
    rw [if_pos hfil]
  · rintro ⟨v, hv, h1, h2, h3⟩
    have hmem : v ∈ st.filter (fun v => v.user == u.id && v.status == "approved"
        && earliest ≤ v.createdAt) := by
      rw [List.mem_filter]
      refine ⟨hv, ?_⟩
      simp only [Bool.and_eq_true, beq_iff_eq, decide_eq_true_eq]
      exact ⟨⟨h1, h2⟩, h3⟩
    have hfil : (st.filter (fun v => v.user == u.id && v.status == "approved"
        && earliest ≤ v.createdAt)).isEmpty = false := by
      cases hc : (st.filter (fun v => v.user == u.id && v.status == "approved"
          && earliest ≤ v.createdAt)).isEmpty
      · rfl
      · rw [List.isEmpty_iff.mp hc] at hmem
        exact absurd hmem (List.not_mem_nil v)
    rw [hfil]
    simp

/-- Witness for C6: with no prior verification a new approved record is created;
with a fresh approved record present, nothing changes. -/
theorem manual_verifications_create_iff_witness :
    ManualVerificationsCmd.processEmail [⟨7, "a@x", "Al"⟩] 10 20 [] "a@x" =
      some ([] ++ [{ user := 7, status := "approved", createdAt := 20, name := "Al" }])
    ∧ ManualVerificationsCmd.processEmail [⟨7, "a@x", "Al"⟩] 10 20
        [{ user := 7, status := "approved", createdAt := 15, name := "Al" }] "a@x" =
      some [{ user := 7, status := "approved", createdAt := 15, name := "Al" }] := by
  constructor
  · exact (manual_verifications_create_iff [⟨7, "a@x", "Al"⟩] 10 20 [] "a@x"
      ⟨7, "a@x", "Al"⟩ (by decide)).1 (by simp)
  · exact (manual_verifications_create_iff [⟨7, "a@x", "Al"⟩] 10 20
      [{ user := 7, status := "approved", createdAt := 15, name := "Al" }] "a@x"
      ⟨7, "a@x", "Al"⟩ (by decide)).2
      ⟨{ user := 7, status := "approved", createdAt := 15, name := "Al" },
        by simp, rfl, rfl, by norm_num⟩

namespace CourseQualityApi

/-- Python `min` of a nonempty list is a member bounding the list below. -/
theorem pyMin_spec (l : List ℚ) (h : l ≠ []) :
    ∃ a, pyMin l = some a ∧ a ∈ l ∧ ∀ y ∈ l, a ≤ y := by
  haveI : Std.Antisymm ((· : ℚ) ≤ ·) := ⟨fun h1 h2 => le_antisymm h1 h2⟩
  obtain ⟨a, ha⟩ : ∃ a, l.min? = some a := by
    cases l with
    | nil => exact absurd rfl h
    | cons x xs => exact ⟨xs.foldl min x, rfl⟩
  have hp := (List.min?_eq_some_iff (fun a => le_refl a) (fun a b => min_choice a b)
    (fun a b c => le_min_iff)).mp ha
  exact ⟨a, ha, hp.1, hp.2⟩

/-- Python `max` of a nonempty list is a member bounding the list above. -/
theorem pyMax_spec (l : List ℚ) (h : l ≠ []) :
    ∃ b, pyMax l = some b ∧ b ∈ l ∧ ∀ y ∈ l, y ≤ b := by
  haveI : Std.Antisymm ((· : ℚ) ≤ ·) := ⟨fun h1 h2 => le_antisymm h1 h2⟩
  obtain ⟨b, hb⟩ : ∃ b, l.max? = some b := by
    cases l with
    | nil => exact absurd rfl h
    | cons x xs => exact ⟨xs.foldl max x, rfl⟩
  have hp := (List.max?_eq_some_iff (fun a => le_refl a) (fun a b => max_choice a b)
    (fun a b c => max_le_iff)).mp hb
  exact ⟨b, hb, hp.1, hp.2⟩

/-- On a nonempty list the numpy median agrees with the direct middle-of-the-
sorted-list formulation. -/
theorem npMedian_eq_specMedian (l : List ℚ) (h : l ≠ []) :
    npMedian l = some (specMedian l) := by
  have hlen : (List.insertionSort (· ≤ ·) l).length = l.length :=
    List.length_insertionSort (· ≤ ·) l
  have hpos : 0 < l.length := List.length_pos.mpr h
  unfold npMedian specMedian
  by_cases hodd : l.length % 2 = 1
  · rw [if_pos hodd]
    have hlt : l.length / 2 < (List.insertionSort (· ≤ ·) l).length := by
      rw [hlen]
      exact Nat.div_lt_self hpos (by norm_num)
    have hidx : (l.length - 1) / 2 = l.length / 2 := by omega
    rw [List.getElem?_eq_getElem hlt, hidx]
    simp only [List.getD_eq_getElem?_getD, List.getElem?_eq_getElem hlt, Option.getD_some,
      Option.some.injEq]
    ring
  · rw [if_neg hodd]
    have heven : l.length % 2 = 0 := by omega
    have hlt : l.length / 2 < (List.insertionSort (· ≤ ·) l).length := by
      rw [hlen]
      omega
    have hlt1 : l.length / 2 - 1 < (List.insertionSort (· ≤ ·) l).length := by
      rw [hlen]
      omega
    have hidx : (l.length - 1) / 2 = l.length / 2 - 1 := by omega
    rw [List.getElem?_eq_getElem hlt1, List.getElem?_eq_getElem hlt, hidx]
    simp only [List.getD_eq_getElem?_getD, List.getElem?_eq_getElem hlt1,
      List.getElem?_eq_getElem hlt, Option.getD_some]

/-- The scipy mode of a nonempty list is a most frequent member. -/
theorem scipyMode_spec (l : List ℚ) (h : l ≠ []) :
    ∃ x, scipyMode l = some x ∧ x ∈ l ∧ ∀ y ∈ l, l.count y ≤ l.count x := by
  have hmemc : ∀ x : ℚ, x ∈ (List.insertionSort (· ≤ ·) l).dedup ↔ x ∈ l := by
    intro x
    rw [List.mem_dedup]
    exact List.mem_insertionSort (· ≤ ·)
  obtain ⟨z, zs, hzl⟩ : ∃ z zs, l = z :: zs := by
    cases l with
    | nil => exact absurd rfl h
    | cons z zs => exact ⟨z, zs, rfl⟩
  have hcne : (List.insertionSort (· ≤ ·) l).dedup ≠ [] := by
    intro hnil
    have hz : z ∈ (List.insertionSort (· ≤ ·) l).dedup :=
      (hmemc z).mpr (by rw [hzl]; exact List.mem_cons_self z zs)
    rw [hnil] at hz
    exact absurd hz (List.not_mem_nil z)
  obtain ⟨m, hm⟩ : ∃ m, (((List.insertionSort (· ≤ ·) l).dedup).map
      (fun x => l.count x)).max? = some m := by
    cases hc : ((List.insertionSort (· ≤ ·) l).dedup).map (fun x => l.count x) with
    | nil => exact absurd (List.map_eq_nil_iff.mp hc) hcne
    | cons y ys => exact ⟨ys.foldl max y, rfl⟩
  have hmprop := List.max?_eq_some_iff'.mp hm
  obtain ⟨x0, hx0c, hx0⟩ := List.mem_map.mp hmprop.1
  have hfind : ∃ x, ((List.insertionSort (· ≤ ·) l).dedup).find?
      (fun x => l.count x = m) = some x := by
    have hs : (((List.insertionSort (· ≤ ·) l).dedup).find?
        (fun x => l.count x = m)).isSome := by
      rw [List.find?_isSome]
      exact ⟨x0, hx0c, by simp [hx0]⟩
    exact Option.isSome_iff_exists.mp hs
  obtain ⟨x, hx⟩ := hfind
  have hxm : l.count x = m := by
    have hp := List.find?_some hx
    simpa using hp
  refine ⟨x, ?_, (hmemc x).mp (List.mem_of_find?_eq_some hx), ?_⟩
  · unfold scipyMode
    rw [hm]
    exact hx
  · intro y hy
    have hyc : l.count y ∈ ((List.insertionSort (· ≤ ·) l).dedup).map
        (fun x => l.count x) :=
      List.mem_map.mpr ⟨y, (hmemc y).mpr hy, rfl⟩
    rw [hxm]
    exact hmprop.2 _ hyc

end CourseQualityApi

/-- C10: on an empty list the statistics helper returns a dictionary with all
five fields None and raises no error, so the subsections, units and videos
aggregations are total on a course without matching content. -/
theorem stats_dict_empty_all_none :
    CourseQualityApi.statsDict [] =
      { min := none, max := none, mean := none, median := none, mode := none }
    ∧ (CourseQualityApi.subsectionsQuality CourseQualityApi.emptyQCourse).num_block_types =
      CourseQualityApi.statsDict []
    ∧ (CourseQualityApi.unitsQuality CourseQualityApi.emptyQCourse).num_blocks =
      CourseQualityApi.statsDict []
    ∧ (CourseQualityApi.videosQuality CourseQualityApi.emptyQCourse).durations =
      CourseQualityApi.statsDict [] :=
  ⟨rfl, rfl, rfl, rfl⟩

/-- C7: on a nonempty list the statistics dictionary holds the list minimum, the
list maximum, the rounded arithmetic mean, the rounded median, and a most
frequent element as the mode. -/
theorem stats_dict_nonempty_descriptive (l : List ℚ) (h : l ≠ []) :
    (∃ a, (CourseQualityApi.statsDict l).min = some a ∧ a ∈ l ∧ ∀ y ∈ l, a ≤ y)
    ∧ (∃ b, (CourseQualityApi.statsDict l).max = some b ∧ b ∈ l ∧ ∀ y ∈ l, y ≤ b)
    ∧ (CourseQualityApi.statsDict l).mean =
      some ((CourseQualityApi.npAround (l.sum / l.length) : ℤ) : ℚ)
    ∧ (CourseQualityApi.statsDict l).median =
      some ((CourseQualityApi.npAround (CourseQualityApi.specMedian l) : ℤ) : ℚ)
    ∧ (∃ x, (CourseQualityApi.statsDict l).mode = some x ∧ x ∈ l ∧
        ∀ y ∈ l, l.count y ≤ l.count x) := by
  have hF : l.isEmpty = false := by
    cases l with
    | nil => exact absurd rfl h
    | cons x xs => rfl
  have hdict : CourseQualityApi.statsDict l =
      { min := CourseQualityApi.pyMin l
        max := CourseQualityApi.pyMax l
        mean := some ((CourseQualityApi.npAround (CourseQualityApi.npMean l) : ℤ) : ℚ)
        median := (CourseQualityApi.npMedian l).map
          (fun q => ((CourseQualityApi.npAround q : ℤ) : ℚ))
        mode := CourseQualityApi.scipyMode l } := by
    unfold CourseQualityApi.statsDict
    rw [hF]
    simp
  rw [hdict]
  refine ⟨?_, ?_, rfl, ?_, ?_⟩
  · obtain ⟨a, ha, hmem, hle⟩ := CourseQualityApi.pyMin_spec l h
    exact ⟨a, ha, hmem, hle⟩
  · obtain ⟨b, hb, hmem, hle⟩ := CourseQualityApi.pyMax_spec l h
    exact ⟨b, hb, hmem, hle⟩
  · rw [CourseQualityApi.npMedian_eq_specMedian l h]
    rfl
  · obtain ⟨x, hx, hmem, hcnt⟩ := CourseQualityApi.scipyMode_spec l h
    exact ⟨x, hx, hmem, hcnt⟩

/-- Witness for C7 on the data 1, 2, 2. -/
theorem stats_dict_nonempty_descriptive_witness :
    (CourseQualityApi.statsDict [1, 2, 2]).mean =
      some ((CourseQualityApi.npAround (([1, 2, 2] : List ℚ).sum /
        (([1, 2, 2] : List ℚ).length : ℚ)) : ℤ) : ℚ)
    ∧ (CourseQualityApi.statsDict [1, 2, 2]).median =
      some ((CourseQualityApi.npAround (CourseQualityApi.specMedian [1, 2, 2]) : ℤ) : ℚ) := by
  have h := stats_dict_nonempty_descriptive [1, 2, 2] (by simp)
  exact ⟨h.2.2.1, h.2.2.2.1⟩
